import Mathlib

/-!
Verification of the reserveme-ai search backend (src/index.js) against its
natural-language specification.

The JavaScript program is shallowly embedded: Firestore records become typed
Lean structures whose fields hold a scalar JavaScript value (`JSVal`), the
aggregation loader, profile builder, index materializer, intent normalizer
and query-engine filter chain of src/index.js are translated into pure Lean
functions, and JavaScript numbers are modelled as `Option ℚ` with `none`
playing the role of NaN (JS numbers in this code path are produced by
`Number(...)` coercions and integer/decimal Firestore data, so rationals with
an explicit NaN are adequate; no claim depends on binary floating point).
-/

namespace ReserveMe

/-- Scalar JavaScript value as stored in a Firestore record field or produced
by the LLM JSON parse.  Arrays and nested objects that the code reads are
given dedicated typed fields in the record structures below, so `JSVal`
covers the scalar positions only.  `vNaN` is the JavaScript NaN. -/
inductive JSVal where
  | vUndef : JSVal
  | vNull : JSVal
  | vBool : Bool → JSVal
  | vNum : ℚ → JSVal
  | vNaN : JSVal
  | vStr : String → JSVal
deriving DecidableEq, Repr

/-- A JavaScript number-or-NaN: `some q` is the finite number `q`, `none` is
NaN. -/
abbrev NumVal := Option ℚ

/-- JavaScript truthiness of a scalar value: `undefined`, `null`, `false`,
`0`, `NaN` and the empty string are falsy. -/
def truthy : JSVal → Bool
  | .vUndef => false
  | .vNull => false
  | .vBool b => b
  | .vNum q => q != 0
  | .vNaN => false
  | .vStr s => s != ""

/-- JavaScript `a || b` on scalar values. -/
def jsOr (a b : JSVal) : JSVal := if truthy a then a else b

/-- Decimal rendering of a rational, used for the JavaScript `String(...)`
coercion of a number.  Integers render exactly as in JS; for non-integers the
rendering `num/den` differs from the JS decimal form, which no claim
depends on. -/
def numToStr (q : ℚ) : String :=
  if q.den = 1 then
    (if q.num < 0 then "-" ++ toString q.num.natAbs else toString q.num.natAbs)
  else
    (if q.num < 0 then "-" ++ toString q.num.natAbs else toString q.num.natAbs)
      ++ "/" ++ toString q.den

/-- JavaScript `String(v)` on a scalar value. -/
def jsToStr : JSVal → String
  | .vUndef => "undefined"
  | .vNull => "null"
  | .vBool b => if b then "true" else "false"
  | .vNum q => numToStr q
  | .vNaN => "NaN"
  | .vStr s => s

/-- Numeric value of a list of decimal digit characters. -/
def digitsToNat (cs : List Char) : ℕ :=
  cs.foldl (fun a c => 10 * a + (c.toNat - 48)) 0

/-- Parse an unsigned decimal literal `digits`, `digits.digits`, `digits.` or
`.digits`; anything else is NaN. -/
def parseDecimalCore (cs : List Char) : Option ℚ :=
  let intPart := cs.takeWhile Char.isDigit
  let rest := cs.dropWhile Char.isDigit
  match rest with
  | [] => if intPart.isEmpty then none else some (digitsToNat intPart)
  | '.' :: frac =>
      if frac.all Char.isDigit && !(intPart.isEmpty && frac.isEmpty) then
        some ((digitsToNat intPart : ℚ) + (digitsToNat frac : ℚ) / (10 ^ frac.length : ℚ))
      else none
  | _ => none

/-- Lowercasing of a string, defined by structural recursion over the
character list (the JavaScript `toLowerCase`, ASCII as in `Char.toLower`). -/
def strLower (s : String) : String := ⟨s.data.map Char.toLower⟩

/-- Whitespace trimming of a string at both ends (the JavaScript `trim`),
defined by structural recursion over the character list. -/
def strTrim (s : String) : String :=
  ⟨((s.data.dropWhile Char.isWhitespace).reverse.dropWhile Char.isWhitespace).reverse⟩

/-- The global replacement `replace(/_/g, " ")`. -/
def underscoresToSpaces (s : String) : String :=
  ⟨s.data.map (fun c => if c == '_' then ' ' else c)⟩

/-- JavaScript `Number(string)`: trimmed empty string is `0`, otherwise an
optionally signed decimal literal; other strings are NaN.  This models the
decimal subset of the JS ToNumber grammar (exponents, hex and Infinity
literals do not occur in the data paths under analysis). -/
def strToNum (s : String) : NumVal :=
  let t := strTrim s
  if t = "" then some 0
  else match t.data with
    | '-' :: rest => (parseDecimalCore rest).map Neg.neg
    | '+' :: rest => parseDecimalCore rest
    | cs => parseDecimalCore cs

/-- JavaScript `Number(v)` on a scalar value. -/
def jsToNumber : JSVal → NumVal
  | .vUndef => none
  | .vNull => some 0
  | .vBool b => some (if b then 1 else 0)
  | .vNum q => some q
  | .vNaN => none
  | .vStr s => strToNum s

/-- Truthiness of a JavaScript number: `0` and NaN are falsy. -/
def numTruthy : NumVal → Bool
  | some q => q != 0
  | none => false

/-- JavaScript `Math.max` on two numbers: NaN propagates. -/
def numMax : NumVal → NumVal → NumVal
  | some x, some y => some (max x y)
  | _, _ => none

/-- JavaScript `Math.round` (round half toward positive infinity). -/
def jsRound (q : ℚ) : ℤ := ⌊q + 1 / 2⌋

/-- Is `needle` an initial segment of `hay` (character lists)? -/
def listIsPre : List Char → List Char → Bool
  | [], _ => true
  | _ :: _, [] => false
  | a :: as, b :: bs => a == b && listIsPre as bs

/-- Does `needle` occur as a contiguous sublist of `hay`? -/
def listHasSub (needle : List Char) : List Char → Bool
  | [] => needle.isEmpty
  | c :: rest => listIsPre needle (c :: rest) || listHasSub needle rest

/-- JavaScript `s.includes(sub)`. -/
def strIncludes (s sub : String) : Bool := listHasSub sub.data s.data


/-!
Record structures.  Each Firestore collection that src/index.js reads is
modelled by a structure carrying the document id together with exactly the
fields the program accesses, each as a scalar `JSVal` (absent fields are
`vUndef`).  Sub-collections the code treats as arrays become Lean lists.
-/

/-- A document of the `users` collection (fields read at src/index.js
lines 152, 156, 183–184, 211, 214–215, 230). -/
structure UserRec where
  id : String := ""
  userId : JSVal := .vUndef
  role : JSVal := .vUndef
  restaurantName : JSVal := .vUndef
  location : JSVal := .vUndef
  averageCost : JSVal := .vUndef
  averagecost : JSVal := .vUndef
deriving DecidableEq, Repr

/-- The `{}` default used for `bucket.users?.[0] || {}`: every field access
yields `undefined`. -/
def emptyUser : UserRec := {}

/-- A document of the `restaurantcuisine` collection; `cuisines` is the array
field read at lines 154 and 219 (`none` models an absent field, which the
optional chaining turns into `[]`). -/
structure CuisineRec where
  id : String := ""
  userId : JSVal := .vUndef
  cuisines : Option (List JSVal) := none
deriving DecidableEq, Repr

/-- A document of the `menuItems` collection (`price` read at lines 159, 234). -/
structure MenuRec where
  id : String := ""
  userId : JSVal := .vUndef
  price : JSVal := .vUndef
deriving DecidableEq, Repr

/-- A document of the `tables` collection (`numSeats` read at line 244). -/
structure TableRec where
  id : String := ""
  userId : JSVal := .vUndef
  numSeats : JSVal := .vUndef
deriving DecidableEq, Repr

/-- A document of the `amenities` collection (`name` read at line 250). -/
structure AmenityRec where
  id : String := ""
  userId : JSVal := .vUndef
  name : JSVal := .vUndef
deriving DecidableEq, Repr

/-- A document of the `experiences` collection (`name` read at line 254). -/
structure ExperienceRec where
  id : String := ""
  userId : JSVal := .vUndef
  name : JSVal := .vUndef
deriving DecidableEq, Repr

/-- A document of the `coverimage` collection (lines 173, 176, 225). -/
structure CoverRec where
  id : String := ""
  userId : JSVal := .vUndef
  coverImageUrl : JSVal := .vUndef
deriving DecidableEq, Repr

/-- A document of the `logoimage` collection (lines 174, 177, 226). -/
structure LogoRec where
  id : String := ""
  userId : JSVal := .vUndef
  logoImageUrl : JSVal := .vUndef
deriving DecidableEq, Repr

/-- A document of the `offers` collection (lines 164–170).  The projected
`from`/`to` dates go through `parseTimestamp`, which is elided here: no claim
concerns offer dates, and the fields are carried through verbatim. -/
structure OfferRec where
  id : String := ""
  userId : JSVal := .vUndef
  name : JSVal := .vUndef
  price : JSVal := .vUndef
  dateFrom : JSVal := .vUndef
  dateTo : JSVal := .vUndef
deriving DecidableEq, Repr

/-- A document of the `extrareserves` collection (carried through verbatim at
lines 190, 194). -/
structure ExtraRec where
  id : String := ""
  userId : JSVal := .vUndef
deriving DecidableEq, Repr

/-- The per-owner attribute bucket `maps[uid]` built by
`loadAllCollectionsByUserId` (src/index.js lines 116–137): one ordered record
list per source collection.  A collection the owner has no records in is the
empty list (`bucket.x?.[0]` and `bucket.x || []` treat a missing key and an
empty array alike).  The collections `mealtimes`, `openingHours`, `reviews`
and `sections` are loaded but never read afterwards and are omitted. -/
structure Bucket where
  users : List UserRec := []
  restaurantcuisine : List CuisineRec := []
  amenities : List AmenityRec := []
  offers : List OfferRec := []
  tables : List TableRec := []
  experiences : List ExperienceRec := []
  menuItems : List MenuRec := []
  extrareserves : List ExtraRec := []
  coverimage : List CoverRec := []
  logoimage : List LogoRec := []
deriving DecidableEq, Repr

/-- The raw Firestore contents of the collections relevant to the claims:
one ordered document list per collection, shared across all owners. -/
structure Store where
  users : List UserRec := []
  restaurantcuisine : List CuisineRec := []
  amenities : List AmenityRec := []
  offers : List OfferRec := []
  tables : List TableRec := []
  experiences : List ExperienceRec := []
  menuItems : List MenuRec := []
  extrareserves : List ExtraRec := []
  coverimage : List CoverRec := []
  logoimage : List LogoRec := []
deriving DecidableEq, Repr

/-- Owner key of a record: `data.userId || d.id` (src/index.js line 122).
A truthy `userId` field is used (as the string object-key it becomes in
`maps[uid]`), else the document id. -/
def ownerKey (userId : JSVal) (id : String) : String :=
  if truthy userId then jsToStr userId else id

/-- Does a record with the given `userId` field and document id land in the
bucket of owner `uid` during the generic grouping pass?  Records whose owner
key is falsy (the empty string) are dropped (`if (!uid) continue`,
line 123). -/
def groupsTo (uid : String) (userId : JSVal) (id : String) : Bool :=
  ownerKey userId id != "" && ownerKey userId id == uid

/-- The bucket the loader `loadAllCollectionsByUserId` produces for owner
`uid` (src/index.js lines 116–137): each collection filtered to the records
grouped under `uid`, in read order; the `users` collection is additionally
folded in a second pass keyed by the document id itself (lines 130–137),
appending `{ id: uid, ...data }` after the generic pass entries. -/
def bucketFor (store : Store) (uid : String) : Bucket where
  users :=
    store.users.filter (fun r => groupsTo uid r.userId r.id)
      ++ (store.users.filter (fun r => r.id == uid)).map
          (fun r => { r with id := uid })
  restaurantcuisine := store.restaurantcuisine.filter (fun r => groupsTo uid r.userId r.id)
  amenities := store.amenities.filter (fun r => groupsTo uid r.userId r.id)
  offers := store.offers.filter (fun r => groupsTo uid r.userId r.id)
  tables := store.tables.filter (fun r => groupsTo uid r.userId r.id)
  experiences := store.experiences.filter (fun r => groupsTo uid r.userId r.id)
  menuItems := store.menuItems.filter (fun r => groupsTo uid r.userId r.id)
  extrareserves := store.extrareserves.filter (fun r => groupsTo uid r.userId r.id)
  coverimage := store.coverimage.filter (fun r => groupsTo uid r.userId r.id)
  logoimage := store.logoimage.filter (fun r => groupsTo uid r.userId r.id)

/-- Average-cost derivation shared by `buildRestaurantProfile`
(src/index.js lines 156–162) and `buildRestaurantsSearchIndex`
(lines 230–240): `Number(explicit)`, and when that is falsy (0 or NaN) and
the menu is non-empty, the mean of the truthy (nonzero, non-NaN) coerced
menu prices, rounded with `Math.round`; with no usable prices the explicit
coercion stands. -/
def jsAverageCost (explicitVal : JSVal) (menu : List MenuRec) : NumVal :=
  let a := jsToNumber explicitVal
  if !numTruthy a && !menu.isEmpty then
    let prices := menu.filterMap (fun m =>
      match jsToNumber (jsOr m.price (.vNum 0)) with
      | some q => if q != 0 then some q else none
      | none => none)
    if prices.isEmpty then a
    else some ((jsRound (prices.sum / (prices.length : ℚ)) : ℤ) : ℚ)
  else a

/-- The restaurant profile returned by `buildRestaurantProfile`
(src/index.js lines 151–197).  The `raw` back-reference carries the user
record and the raw `tables`/`extrareserves` lists, which equal the bucket
fields below and the `userDoc`, so it is not duplicated. -/
structure Profile where
  id : String
  restaurantName : JSVal
  location : JSVal
  cuisines : List JSVal
  averageCost : NumVal
  offers : List OfferRec
  image : JSVal
  tables : List TableRec
  extrareserves : List ExtraRec
  rawUserDoc : UserRec
deriving DecidableEq, Repr

/-- Translation of `buildRestaurantProfile(userId, bucket)` (src/index.js
lines 151–197). -/
def buildRestaurantProfile (userId : String) (bucket : Bucket) : Profile :=
  let userDoc := bucket.users.head?.getD emptyUser
  let cuisineDoc := bucket.restaurantcuisine.head?.getD {}
  let cuisines := cuisineDoc.cuisines.getD []
  let averageCost :=
    jsAverageCost (jsOr userDoc.averageCost (jsOr userDoc.averagecost (.vNum 0)))
      bucket.menuItems
  let coverImageDoc := bucket.coverimage.find? (fun img => img.userId == .vStr userId)
  let logoImageDoc := bucket.logoimage.find? (fun img => img.userId == .vStr userId)
  let coverImage := match coverImageDoc with
    | some d => d.coverImageUrl
    | none => .vUndef
  let logoImage := match logoImageDoc with
    | some d => d.logoImageUrl
    | none => .vUndef
  let image := jsOr coverImage (jsOr logoImage (.vStr ""))
  { id := userId
    restaurantName := jsOr userDoc.restaurantName (.vStr "")
    location := jsOr userDoc.location (.vStr "")
    cuisines := cuisines
    averageCost := averageCost
    offers := bucket.offers
    image := image
    tables := bucket.tables
    extrareserves := bucket.extrareserves
    rawUserDoc := userDoc }

/-- The denormalized search document `batch.set` writes into the
`restaurants_search` collection (src/index.js lines 260–271).  The
`updatedAt` server-timestamp sentinel is elided.  `restaurantName`,
`location` and `image` keep the scalar `JSVal` the code computed (the `||`
fallbacks do not force a string on a truthy non-string field); `cuisines`,
`amenities` and `vibes` are string lists by the `String(...).toLowerCase()`
maps; `averageCost` and `maxSeats` are numbers (possibly NaN). -/
structure SearchDocument where
  restaurantId : String
  restaurantName : JSVal
  location : JSVal
  cuisines : List String
  averageCost : NumVal
  maxSeats : NumVal
  image : JSVal
  amenities : List String
  vibes : List String
deriving DecidableEq, Repr

/-- The amenity projection `String(a.name || a).toLowerCase()` (line 250):
when `a.name` is falsy the record itself is stringified, which for an object
is `"[object Object]"`. -/
def amenityString (a : AmenityRec) : String :=
  strLower (if truthy a.name then jsToStr a.name else "[object Object]")

/-- The search document built for one surviving owner bucket
(src/index.js lines 213–271), given `user = bucket.users?.[0]`. -/
def mkSearchDoc (uid : String) (bucket : Bucket) (user : UserRec) : SearchDocument where
  restaurantId := uid
  restaurantName := jsOr user.restaurantName (.vStr "")
  location := jsOr user.location (.vStr "")
  cuisines :=
    ((bucket.restaurantcuisine.head?.bind (fun d => d.cuisines)).getD []).map
      (fun c => strLower (jsToStr c))
  averageCost := jsAverageCost (jsOr user.averageCost (.vNum 0)) bucket.menuItems
  maxSeats :=
    bucket.tables.foldl
      (fun mx t => numMax mx (jsToNumber (jsOr t.numSeats (.vNum 0)))) (some 0)
  image :=
    jsOr (match bucket.coverimage.head? with
          | some d => d.coverImageUrl
          | none => .vUndef)
      (jsOr (match bucket.logoimage.head? with
             | some d => d.logoImageUrl
             | none => .vUndef)
        (.vStr ""))
  amenities := bucket.amenities.map amenityString
  vibes := bucket.experiences.map (fun e => strLower (jsToStr (jsOr e.name (.vStr ""))))

/-- Is the first user record of the bucket present with `role === "hotel"`
(the skip test of src/index.js lines 210–211)? -/
def bucketRoleIsHotel (bucket : Bucket) : Bool :=
  match bucket.users.head? with
  | some u => u.role == .vStr "hotel"
  | none => false

/-- Translation of the index materializer `buildRestaurantsSearchIndex`
(src/index.js lines 202–278): iterate the owner buckets in map-entry order,
skip owners whose first user record is missing or whose `role` is not
`"hotel"`, and emit one search document per survivor.  The returned list is
the batch of documents upserted into `restaurants_search`; the logged count
is its length. -/
def buildRestaurantsSearchIndex (entries : List (String × Bucket)) : List SearchDocument :=
  entries.filterMap (fun e =>
    match e.2.users.head? with
    | none => none
    | some user =>
        if user.role == JSVal.vStr "hotel" then some (mkSearchDoc e.1 e.2 user)
        else none)

/-!
Intent extraction (src/index.js lines 52, 75–78, 405–421).
-/

/-- JavaScript word character (`\w`): ASCII letter, digit or underscore. -/
def isWordCh (c : Char) : Bool := c.isAlphanum || c == '_'

/-- Case-insensitive literal match of the lowercase word `w` against the
start of `cs`; on success returns the remaining characters. -/
def lowerPre : List Char → List Char → Option (List Char)
  | [], rest => some rest
  | _ :: _, [] => none
  | w :: ws, c :: cs => if c.toLower == w then lowerPre ws cs else none

/-- The alternation `people|persons|guests|pax` of the regex at
src/index.js line 76. -/
def peopleWords : List String := ["people", "persons", "guests", "pax"]

/-- Word boundary after a match: end of input or a non-word character. -/
def boundaryAfter : List Char → Bool
  | [] => true
  | c :: _ => !isWordCh c

/-- Does one of the people words match here (case-insensitively), followed by
a word boundary? -/
def peopleWordHere (cs : List Char) : Bool :=
  peopleWords.any (fun w =>
    match lowerPre w.data cs with
    | some rest => boundaryAfter rest
    | none => false)

/-- Match `\s*(people|persons|guests|pax)\b` at the start of `cs`. -/
def peopleTail (cs : List Char) : Bool :=
  peopleWordHere (cs.dropWhile Char.isWhitespace)

/-- Match `(\d{1,2})\s*(people|persons|guests|pax)\b` at the start of the
input (greedy on the digits, with the regex backtracking from two digits to
one), returning the numeric value of the digit capture. -/
def matchPeopleHere : List Char → Option ℕ
  | [] => none
  | c1 :: rest =>
      if c1.isDigit then
        match rest with
        | c2 :: rest2 =>
            if c2.isDigit then
              if peopleTail rest2 then some (10 * (c1.toNat - 48) + (c2.toNat - 48))
              else if peopleTail rest then some (c1.toNat - 48)
              else none
            else if peopleTail rest then some (c1.toNat - 48) else none
        | [] => none
      else none

/-- Left-to-right scan for the first position with a word boundary before it
where the body of the regex matches (`prevWord` tracks whether the previous
character was a word character). -/
def scanPeople (prevWord : Bool) : List Char → Option ℕ
  | [] => none
  | c :: cs =>
      match if prevWord then none else matchPeopleHere (c :: cs) with
      | some n => some n
      | none => scanPeople (isWordCh c) cs

/-- Translation of `extractPeopleFromText` (src/index.js lines 75–78): first
match of `/\b(\d{1,2})\s*(people|persons|guests|pax)\b/i` in the text, with
`Number` applied to the digit capture; `null` when there is no match. -/
def extractPeopleFromText (text : String) : Option ℕ :=
  scanPeople false text.data

/-- Translation of the helper `normalize` (src/index.js line 52):
`s ? String(s).toLowerCase().trim().replace(/_/g, " ") : ""`. -/
def jsNormalize (v : JSVal) : String :=
  if truthy v then
    underscoresToSpaces (strTrim (strLower (jsToStr v)))
  else ""

/-- The `keywords` field of the parsed completion output: either an actual
JSON array (of strings — a non-string element would throw at query time and
occurs in no claim) or a scalar. -/
inductive JKeywords where
  | arrK : List String → JKeywords
  | scalarK : JSVal → JKeywords
deriving DecidableEq, Repr

/-- The result of `safeParseJSON` as consumed by the intent normalization:
the six property reads `intent.place`, `intent.cuisine`, `intent.vibe`,
`intent.maxBudget`, `intent.people`, `intent.keywords`
(src/index.js lines 407–412). -/
structure ParsedIntent where
  place : JSVal := .vUndef
  cuisine : JSVal := .vUndef
  vibe : JSVal := .vUndef
  maxBudget : JSVal := .vUndef
  people : JSVal := .vUndef
  keywords : JKeywords := .scalarK .vUndef
deriving DecidableEq, Repr

/-- The value `safeParseJSON` returns when the completion output contains no
parseable JSON even after the `{...}` substring recovery (src/index.js
lines 54–66): the empty object, on which every property read is
`undefined`. -/
def parseFailureIntent : ParsedIntent := {}

/-- The normalized intent stored in the AI cache and driving the filter
chain: lowercased strings, number-or-null budget and party size, keyword
list. -/
structure Intent where
  place : String := ""
  cuisine : String := ""
  vibe : String := ""
  maxBudget : Option ℚ := none
  people : Option ℚ := none
  keywords : List String := []
deriving DecidableEq, Repr

/-- The `extractPeopleFromText(query) || null` step of src/index.js
line 411: a zero extraction result is falsy and collapses to `null`. -/
def peopleFromText (query : String) : Option ℚ :=
  match extractPeopleFromText query with
  | some n => if (n : ℚ) ≠ 0 then some (n : ℚ) else none
  | none => none

/-- Keyword normalization (src/index.js lines 412–421):
`intent.keywords || []`, wrap a nonblank string, otherwise the empty list. -/
def normKeywords : JKeywords → List String
  | .arrK ks => ks
  | .scalarK v =>
      if truthy v then
        match v with
        | .vStr s => if strTrim s != "" then [strTrim s] else []
        | _ => []
      else []

/-- Intent normalization of src/index.js lines 407–421, applied to the
parsed completion output and the raw query text. -/
def normalizeIntent (p : ParsedIntent) (query : String) : Intent where
  place := jsNormalize p.place
  cuisine := jsNormalize p.cuisine
  vibe := jsNormalize p.vibe
  maxBudget :=
    match jsToNumber p.maxBudget with
    | some q => if q ≠ 0 then some q else none
    | none => none
  people :=
    match jsToNumber p.people with
    | some q => if q ≠ 0 then some q else peopleFromText query
    | none => peopleFromText query
  keywords := normKeywords p.keywords

/-!
Query engine (src/index.js lines 427–474; the cache-hit branch at
lines 312–365 applies the same filters in the same order).
-/

/-- JSON string literal for `JSON.stringify`; escaping of special characters
is elided (the repository data contains none and no claim depends on it). -/
def jsonStr (s : String) : String := "\"" ++ s ++ "\""

/-- JSON rendering of a number field (`JSON.stringify(NaN)` is `null`). -/
def jsonOfNum : NumVal → String
  | some q => numToStr q
  | none => "null"

/-- JSON rendering of one scalar field; `none` means the key is omitted, as
`JSON.stringify` drops `undefined`-valued keys. -/
def jsonOfVal : JSVal → Option String
  | .vUndef => none
  | .vNull => some "null"
  | .vBool b => some (if b then "true" else "false")
  | .vNum q => some (numToStr q)
  | .vNaN => some "null"
  | .vStr s => some (jsonStr s)

/-- JSON rendering of a string-list field. -/
def jsonOfList (xs : List String) : String :=
  "[" ++ String.intercalate "," (xs.map jsonStr) ++ "]"

/-- The `JSON.stringify(p)` blob of a search document used by the keyword
filter (src/index.js line 463), with the document fields in the order they
were written at lines 260–271; the `updatedAt` timestamp rendering is
elided. -/
def stringifyDoc (d : SearchDocument) : String :=
  "\x7b" ++ String.intercalate ","
    (([some (jsonStr "restaurantId" ++ ":" ++ jsonStr d.restaurantId),
       (jsonOfVal d.restaurantName).map (fun v => jsonStr "restaurantName" ++ ":" ++ v),
       (jsonOfVal d.location).map (fun v => jsonStr "location" ++ ":" ++ v),
       some (jsonStr "cuisines" ++ ":" ++ jsonOfList d.cuisines),
       some (jsonStr "averageCost" ++ ":" ++ jsonOfNum d.averageCost),
       some (jsonStr "maxSeats" ++ ":" ++ jsonOfNum d.maxSeats),
       (jsonOfVal d.image).map (fun v => jsonStr "image" ++ ":" ++ v),
       some (jsonStr "amenities" ++ ":" ++ jsonOfList d.amenities),
       some (jsonStr "vibes" ++ ":" ++ jsonOfList d.vibes)] : List (Option String)).filterMap id)
  ++ "\x7d"

/-- The place filter body `r.location.toLowerCase().includes(placeNorm)`
(line 436) evaluated across the candidate list; a candidate whose `location`
is not a string makes the callback throw a TypeError, which aborts the
request (modelled by `Except.error`). -/
def filterPlaceE (placeNorm : String) : List SearchDocument → Except Unit (List SearchDocument)
  | [] => .ok []
  | r :: rs =>
      match r.location with
      | .vStr s =>
          match filterPlaceE placeNorm rs with
          | .ok rest => .ok (if strIncludes (strLower s) placeNorm then r :: rest else rest)
          | .error e => .error e
      | _ => .error ()

/-- The guarded place stage (src/index.js lines 434–437). -/
def placeStage (place : String) (c : List SearchDocument) : Except Unit (List SearchDocument) :=
  if place == "" then .ok c else filterPlaceE (strLower place) c

/-- The cuisine predicate of src/index.js lines 441–443: some cuisine entry
substring-contains the query cuisine (both lowercased, no stripping). -/
def cuisinePred (cuisineNorm : String) (r : SearchDocument) : Bool :=
  r.cuisines.any (fun c => strIncludes (strLower c) cuisineNorm)

/-- The guarded cuisine stage (src/index.js lines 439–444). -/
def cuisineStage (cuisine : String) (c : List SearchDocument) : List SearchDocument :=
  if cuisine == "" then c else c.filter (cuisinePred (strLower cuisine))

/-- The budget predicate `r.averageCost <= maxBudget` (line 447); a NaN
average cost compares false. -/
def budgetPred (b : ℚ) (r : SearchDocument) : Bool :=
  match r.averageCost with
  | some a => a ≤ b
  | none => false

/-- The guarded budget stage (src/index.js lines 446–448); the guard is the
truthiness of the stored `maxBudget` (`null`, `0` and NaN skip it). -/
def budgetStage (mb : Option ℚ) (c : List SearchDocument) : List SearchDocument :=
  match mb with
  | some b => if b == 0 then c else c.filter (budgetPred b)
  | none => c

/-- The party-size predicate `r.maxSeats >= people` (line 451); a NaN
`maxSeats` compares false. -/
def peoplePred (p : ℚ) (r : SearchDocument) : Bool :=
  match r.maxSeats with
  | some m => p ≤ m
  | none => false

/-- The guarded party-size stage (src/index.js lines 450–452). -/
def peopleStage (pp : Option ℚ) (c : List SearchDocument) : List SearchDocument :=
  match pp with
  | some p => if p == 0 then c else c.filter (peoplePred p)
  | none => c

/-- The vibe predicate of src/index.js lines 456–458: the space-joined
concatenation of the vibe and amenity lists, lowercased, substring-contains
the query vibe. -/
def vibePred (vibeNorm : String) (r : SearchDocument) : Bool :=
  strIncludes (strLower (String.intercalate " " (r.vibes ++ r.amenities))) vibeNorm

/-- The guarded vibe stage (src/index.js lines 454–459). -/
def vibeStage (vibe : String) (c : List SearchDocument) : List SearchDocument :=
  if vibe == "" then c else c.filter (vibePred (strLower vibe))

/-- The keyword predicate of src/index.js lines 463–465: some lowercased
keyword occurs in the lowercased JSON blob of the document. -/
def keywordPred (keywordsNorm : List String) (r : SearchDocument) : Bool :=
  keywordsNorm.any (fun k => strIncludes (strLower (stringifyDoc r)) k)

/-- The guarded keyword stage (src/index.js lines 461–467). -/
def keywordStage (ks : List String) (c : List SearchDocument) : List SearchDocument :=
  if ks.isEmpty then c else c.filter (keywordPred (ks.map (fun k => strLower k)))

/-- The filter chain applied to the candidates read from the
`restaurants_search` collection, in source order: place, cuisine, budget,
people, vibe, keywords (src/index.js lines 434–467). -/
def surviving (i : Intent) (docs : List SearchDocument) : Except Unit (List SearchDocument) :=
  match placeStage i.place docs with
  | .ok c =>
      .ok (keywordStage i.keywords
            (vibeStage i.vibe
              (peopleStage i.people
                (budgetStage i.maxBudget
                  (cuisineStage i.cuisine c)))))
  | .error e => .error e

/-- The response payload of `POST /ai-search` (src/index.js lines 469–474):
the pre-truncation survivor count and the first 50 survivors. -/
structure SearchResponse where
  total : ℕ
  restaurants : List SearchDocument
deriving DecidableEq, Repr

/-- The search response computed from the intent and the indexed documents
(src/index.js lines 469–474). -/
def runSearch (i : Intent) (docs : List SearchDocument) : Except Unit SearchResponse :=
  match surviving i docs with
  | .ok c => .ok { total := c.length, restaurants := c.take 50 }
  | .error e => .error e

/-!
Startup behaviour of src/index.js (module top level, lines 1–501).
-/

/-- One top-level startup action of src/index.js. -/
inductive StartupStep where
  | useMiddleware : String → StartupStep
  | requireEnv : String → StartupStep
  | initFirebase : StartupStep
  | initGroq : StartupStep
  | registerPost : String → StartupStep
  | registerGet : String → StartupStep
  | callBuildRestaurantsSearchIndex : StartupStep
  | scheduleInterval : String → ℕ → StartupStep
  | listen : StartupStep
deriving DecidableEq, Repr

/-- Transcription of the module top level of src/index.js in statement
order (lines 7–9, 25–47, 283, 483, 498, 500–501).  The `app.listen` callback
only logs; there is no call of `buildRestaurantsSearchIndex` and no
`setInterval` anywhere in the file (a `scheduleInterval` step would model
one). -/
def indexJsStartup : List StartupStep :=
  [.useMiddleware "cors",
   .useMiddleware "json",
   .requireEnv "FIREBASE_SERVICE_ACCOUNT",
   .initFirebase,
   .requireEnv "GROQ_API_KEY",
   .initGroq,
   .registerPost "/ai-search",
   .registerGet "/test-firestore",
   .registerGet "/",
   .listen]

/-- Does a startup step execute or schedule the index materializer? -/
def invokesIndexBuild : StartupStep → Bool
  | .callBuildRestaurantsSearchIndex => true
  | .scheduleInterval _ _ => true
  | _ => false

/-!
Helper lemmas.
-/

/-- A string contains no ASCII uppercase letter. -/
def IsLowercase (s : String) : Prop := ∀ c ∈ s.data, c.isUpper = false

/-- Lowering a character never yields an ASCII uppercase letter. -/
theorem isUpper_toLower (c : Char) : (Char.toLower c).isUpper = false := by
  unfold Char.toLower
  by_cases h : c.toNat ≥ 65 ∧ c.toNat ≤ 90
  · rw [if_pos h]
    have hval : (Char.ofNat (c.toNat + 32)).val.toBitVec.toNat = c.toNat + 32 := by
      have hvalid : (c.toNat + 32).isValidChar := by
        left
        omega
      show (Char.ofNat (c.toNat + 32)).toNat = c.toNat + 32
      unfold Char.ofNat
      rw [dif_pos hvalid]
      rfl
    unfold Char.isUpper
    have hnot : ¬((Char.ofNat (c.toNat + 32)).val ≤ 90) := by
      rw [UInt32.le_def, BitVec.le_def]
      have h90 : ((90 : UInt32)).toBitVec.toNat = 90 := by decide
      omega
    simp [hnot]
  · rw [if_neg h]
    unfold Char.isUpper
    by_contra hcon
    simp only [Bool.not_eq_false, Bool.and_eq_true, decide_eq_true_eq] at hcon
    obtain ⟨h1, h2⟩ := hcon
    rw [ge_iff_le, UInt32.le_def, BitVec.le_def] at h1
    rw [UInt32.le_def, BitVec.le_def] at h2
    have h65 : ((65 : UInt32)).toBitVec.toNat = 65 := by decide
    have h90 : ((90 : UInt32)).toBitVec.toNat = 90 := by decide
    apply h
    have hc : c.toNat = c.val.toBitVec.toNat := rfl
    constructor <;> omega

/-- The result of `strLower` is lowercase. -/
theorem isLowercase_strLower (s : String) : IsLowercase (strLower s) := by
  intro c hc
  obtain ⟨c0, _, rfl⟩ := List.mem_map.mp hc
  exact isUpper_toLower c0

/-- Membership and shape of an accepted candidate of the place filter. -/
theorem filterPlaceE_mem {pn : String} :
    ∀ {docs out : List SearchDocument}, filterPlaceE pn docs = .ok out →
      ∀ r ∈ out, r ∈ docs ∧ ∃ s, r.location = .vStr s ∧ strIncludes (strLower s) pn = true := by
  intro docs
  induction docs with
  | nil =>
      intro out h r hr
      simp only [filterPlaceE] at h
      cases h
      cases hr
  | cons d ds ih =>
      intro out h r hr
      simp only [filterPlaceE] at h
      cases hloc : d.location with
      | vStr s =>
          rw [hloc] at h
          cases hrec : filterPlaceE pn ds with
          | ok rest =>
              rw [hrec] at h
              cases h
              by_cases hinc : strIncludes (strLower s) pn = true
              · rw [if_pos hinc] at hr
                cases hr with
                | head =>
                    exact ⟨List.mem_cons_self d ds, s, hloc, hinc⟩
                | tail _ htl =>
                    obtain ⟨hmem, hs⟩ := ih hrec r htl
                    exact ⟨List.mem_cons_of_mem d hmem, hs⟩
              · rw [if_neg hinc] at hr
                obtain ⟨hmem, hs⟩ := ih hrec r hr
                exact ⟨List.mem_cons_of_mem d hmem, hs⟩
          | error e =>
              rw [hrec] at h
              cases h
      | vUndef => rw [hloc] at h; cases h
      | vNull => rw [hloc] at h; cases h
      | vBool b => rw [hloc] at h; cases h
      | vNum q => rw [hloc] at h; cases h
      | vNaN => rw [hloc] at h; cases h

/-- An accepted candidate of the cuisine stage was a candidate. -/
theorem mem_cuisineStage {cu : String} {c : List SearchDocument} {r : SearchDocument}
    (h : r ∈ cuisineStage cu c) : r ∈ c := by
  unfold cuisineStage at h
  split at h
  · exact h
  · exact List.mem_of_mem_filter h

/-- An accepted candidate of the budget stage was a candidate. -/
theorem mem_budgetStage {mb : Option ℚ} {c : List SearchDocument} {r : SearchDocument}
    (h : r ∈ budgetStage mb c) : r ∈ c := by
  unfold budgetStage at h
  split at h
  · split at h
    · exact h
    · exact List.mem_of_mem_filter h
  · exact h

/-- An accepted candidate of the party-size stage was a candidate. -/
theorem mem_peopleStage {pp : Option ℚ} {c : List SearchDocument} {r : SearchDocument}
    (h : r ∈ peopleStage pp c) : r ∈ c := by
  unfold peopleStage at h
  split at h
  · split at h
    · exact h
    · exact List.mem_of_mem_filter h
  · exact h

/-- An accepted candidate of the vibe stage was a candidate. -/
theorem mem_vibeStage {v : String} {c : List SearchDocument} {r : SearchDocument}
    (h : r ∈ vibeStage v c) : r ∈ c := by
  unfold vibeStage at h
  split at h
  · exact h
  · exact List.mem_of_mem_filter h

/-- An accepted candidate of the keyword stage was a candidate. -/
theorem mem_keywordStage {ks : List String} {c : List SearchDocument} {r : SearchDocument}
    (h : r ∈ keywordStage ks c) : r ∈ c := by
  unfold keywordStage at h
  split at h
  · exact h
  · exact List.mem_of_mem_filter h

/-- A search document is produced by the index materializer exactly when its
owner entry carries a first user record with role `"hotel"`. -/
theorem mem_buildIndex_iff {entries : List (String × Bucket)} {d : SearchDocument} :
    d ∈ buildRestaurantsSearchIndex entries ↔
      ∃ uid bucket user, (uid, bucket) ∈ entries ∧ bucket.users.head? = some user ∧
        user.role = .vStr "hotel" ∧ d = mkSearchDoc uid bucket user := by
  unfold buildRestaurantsSearchIndex
  rw [List.mem_filterMap]
  constructor
  · rintro ⟨⟨uid, bucket⟩, hmem, hsome⟩
    dsimp only at hsome
    cases hu : bucket.users.head? with
    | none => rw [hu] at hsome; cases hsome
    | some user =>
        rw [hu] at hsome
        dsimp only at hsome
        by_cases hrole : user.role == JSVal.vStr "hotel"
        · rw [if_pos hrole] at hsome
          cases hsome
          exact ⟨uid, bucket, user, hmem, hu, by simpa using hrole, rfl⟩
        · rw [if_neg hrole] at hsome
          cases hsome
  · rintro ⟨uid, bucket, user, hmem, hu, hrole, rfl⟩
    refine ⟨(uid, bucket), hmem, ?_⟩
    simp [hu, hrole]

/-!
Concrete fixtures used by witnesses and counterexamples.
-/

/-- A search document matching place `kilimani` and a 2000 budget. -/
def d1 : SearchDocument where
  restaurantId := "r1"
  restaurantName := .vStr "Mama Oliech"
  location := .vStr "Kilimani Road"
  cuisines := ["kenyan"]
  averageCost := some 1500
  maxSeats := some 6
  image := .vStr ""
  amenities := ["wifi"]
  vibes := ["family"]

/-- A search document in `kilimani` but over budget. -/
def d2 : SearchDocument where
  restaurantId := "r2"
  restaurantName := .vStr "Fancy Place"
  location := .vStr "Kilimani"
  cuisines := ["french"]
  averageCost := some 5000
  maxSeats := some 10
  image := .vStr ""
  amenities := []
  vibes := []

/-- A search document within budget but elsewhere. -/
def d3 : SearchDocument where
  restaurantId := "r3"
  restaurantName := .vStr "Cheap Eats"
  location := .vStr "Westlands"
  cuisines := ["kenyan"]
  averageCost := some 1000
  maxSeats := some 4
  image := .vStr ""
  amenities := []
  vibes := []

/-- A search document whose cuisine list is `["italian"]`. -/
def docItalian : SearchDocument where
  restaurantId := "it1"
  restaurantName := .vStr "Roma"
  location := .vStr "Westlands"
  cuisines := ["italian"]
  averageCost := some 1200
  maxSeats := some 4
  image := .vStr ""
  amenities := []
  vibes := []

/-- A search document seating at most 2. -/
def docSmall : SearchDocument where
  restaurantId := "s1"
  restaurantName := .vStr "Tiny Table"
  location := .vStr "CBD"
  cuisines := ["cafe"]
  averageCost := some 800
  maxSeats := some 2
  image := .vStr ""
  amenities := []
  vibes := []

/-- The all-empty intent (every filter guard falsy). -/
def emptyIntent : Intent := {}

/-- An intent that only sets the cuisine field, as produced by the
normalization for a query mentioning just a cuisine. -/
def cuisineOnlyIntent (cu : String) : Intent := { cuisine := cu }

/-- The intent of the specification example `{place:"kilimani",
maxBudget:2000}`. -/
def kilimaniIntent : Intent := { place := "kilimani", maxBudget := some 2000 }

/-- Seventy-five identical matching documents. -/
def docs75 : List SearchDocument := List.replicate 75 d1

/-!
Claims.
-/

/-- Claim C2 (code_bug evidence).  The claim states that
`buildRestaurantsSearchIndex` runs once at process start and then about
every 10 minutes.  The transcription of the module top level of src/index.js
shows that no startup step calls the materializer and no recurring schedule
(`setInterval`) exists, while the `/ai-search` route that reads the
`restaurants_search` collection is registered: the materializer is dead code
and the collection is never rebuilt by this program, contradicting both the
spec and the comment `REBUILD SEARCH INDEX (RUN ONCE)` at src/index.js
line 281. -/
theorem c2_startup_never_rebuilds_index :
    (indexJsStartup.all (fun s => !invokesIndexBuild s)) = true
    ∧ StartupStep.registerPost "/ai-search" ∈ indexJsStartup := by
  constructor
  · rfl
  · decide

/-- Claim C3 (confirmed).  The index materializer emits exactly one search
document per owner entry whose first user record has role `"hotel"`, in
entry order (first conjunct), and a document is produced precisely when such
a user record exists (second conjunct): an owner with no users record, or
with any other role (such as `"diner"`), never appears. -/
theorem c3_index_role_filter (entries : List (String × Bucket)) :
    ((buildRestaurantsSearchIndex entries).map (fun d => d.restaurantId)
      = (entries.filter (fun e => bucketRoleIsHotel e.2)).map (fun e => e.1))
    ∧ (∀ d, d ∈ buildRestaurantsSearchIndex entries ↔
        ∃ uid bucket user, (uid, bucket) ∈ entries ∧ bucket.users.head? = some user ∧
          user.role = .vStr "hotel" ∧ d = mkSearchDoc uid bucket user) := by
  constructor
  · induction entries with
    | nil => rfl
    | cons e es ih =>
        obtain ⟨uid, b⟩ := e
        unfold buildRestaurantsSearchIndex at ih ⊢
        rw [List.filterMap_cons, List.filter_cons]
        cases hu : b.users.head? with
        | none => simpa [bucketRoleIsHotel, hu] using ih
        | some user =>
            by_cases hrole : user.role == JSVal.vStr "hotel"
            · simpa [bucketRoleIsHotel, hu, hrole, mkSearchDoc] using ih
            · simpa [bucketRoleIsHotel, hu, hrole] using ih
  · intro d
    exact mem_buildIndex_iff

/-- Claim C4 (amended).  In the query engine of src/index.js (lines
439–444) a candidate survives the cuisine filter exactly when some entry of
its cuisine list, lowercased, substring-contains the lowercased query
cuisine verbatim: no stripping of the words `food` or `cuisine` takes place
(the stripping `normalizeCuisine` exists only in the earlier prototype
src/unnamed/part_001). -/
theorem c4_cuisine_filter_verbatim (cu : String) (docs : List SearchDocument)
    (h : cu ≠ "") :
    surviving (cuisineOnlyIntent cu) docs
      = .ok (docs.filter (fun r => r.cuisines.any (fun e => strIncludes (strLower e) (strLower cu)))) := by
  have hne : (cu == "") = false := beq_eq_false_iff_ne.mpr h
  unfold surviving placeStage cuisineOnlyIntent
  simp only [cuisineStage, hne, budgetStage, peopleStage, vibeStage, keywordStage]
  rfl

/-- Witness for claim C4 at a concrete input: the query cuisine
`"italian food"` eliminates the document whose cuisine list is
`["italian"]`. -/
theorem c4_cuisine_filter_verbatim_witness :
    "italian food" ≠ "" ∧
    surviving (cuisineOnlyIntent "italian food") [docItalian] = .ok [] := by
  refine ⟨by decide, ?_⟩
  rw [c4_cuisine_filter_verbatim "italian food" [docItalian] (by decide)]
  rfl

/-- Counterexample to claim C4 as stated: the claim predicts that a query
cuisine `"italian food"` matches a document whose cuisine list contains
`"italian"` (after stripping, `"italian"` contains `"italian"`), but the
code returns no result for it, because the verbatim substring test
`"italian".includes("italian food")` fails. -/
theorem c4_cuisine_stripping_cex :
    runSearch (cuisineOnlyIntent "italian food") [docItalian] = .ok ⟨0, []⟩
    ∧ strIncludes "italian" "italian food" = false
    ∧ strIncludes "italian" "italian" = true := by
  exact ⟨rfl, rfl, rfl⟩

/-- Claim C8 (confirmed).  Whenever the filter chain succeeds, the response
total is the survivor count before truncation and the restaurants list is
the first `min(total, 50)` survivors in index order. -/
theorem c8_total_and_cap (i : Intent) (docs surv : List SearchDocument)
    (h : surviving i docs = .ok surv) :
    runSearch i docs = .ok ⟨surv.length, surv.take 50⟩
    ∧ (surv.take 50).length = min surv.length 50 := by
  constructor
  · unfold runSearch
    rw [h]
  · rw [List.length_take, Nat.min_comm]

/-- Witness for claim C8 at the spec example: 75 matching documents yield a
response with `total = 75` and 50 returned restaurants. -/
theorem c8_total_and_cap_witness :
    runSearch emptyIntent docs75 = .ok ⟨75, List.replicate 50 d1⟩
    ∧ (List.replicate 50 d1).length = 50 := by
  have hc := c8_total_and_cap emptyIntent docs75 docs75 rfl
  refine ⟨?_, by decide⟩
  rw [hc.1]
  rfl

/-- Claim C5 (amended).  When the completion output has no parseable JSON,
`safeParseJSON` yields the empty object and the normalized intent has every
field empty or null — except that `people` falls back to the regex
extraction from the raw query text (src/index.js line 411).  Provided the
query text contains no people-count pattern, the intent is fully empty and
the search returns the unfiltered capped listing instead of an error. -/
theorem c5_parse_failure_empty_intent (query : String) (docs : List SearchDocument)
    (hq : extractPeopleFromText query = none) :
    normalizeIntent parseFailureIntent query = emptyIntent
    ∧ runSearch (normalizeIntent parseFailureIntent query) docs
        = .ok ⟨docs.length, docs.take 50⟩ := by
  have hp : peopleFromText query = none := by
    rw [peopleFromText, hq]
  have hi : normalizeIntent parseFailureIntent query = emptyIntent := by
    rw [show normalizeIntent parseFailureIntent query
          = { people := peopleFromText query } from rfl, hp]
    rfl
  refine ⟨hi, ?_⟩
  rw [hi]
  rfl

/-- Witness for claim C5 at a concrete input: the query
`"sushi in kilimani"` with unparseable completion output yields the empty
intent and an unfiltered (capped) listing of a three-document index. -/
theorem c5_parse_failure_empty_intent_witness :
    extractPeopleFromText "sushi in kilimani" = none
    ∧ normalizeIntent parseFailureIntent "sushi in kilimani" = emptyIntent
    ∧ runSearch (normalizeIntent parseFailureIntent "sushi in kilimani") [d1, d2, d3]
        = .ok ⟨3, [d1, d2, d3]⟩ := by
  have hc := c5_parse_failure_empty_intent "sushi in kilimani" [d1, d2, d3] rfl
  exact ⟨rfl, hc.1, hc.2⟩

/-- Counterexample to claim C5 as stated: with unparseable completion output
for the query `"dinner for 4 people"`, the normalized intent does not have a
null `people` field — it is 4, extracted from the raw query text — and the
resulting search is not the unfiltered listing: the one indexed document
(seating 2) is filtered out. -/
theorem c5_people_extraction_cex :
    (normalizeIntent parseFailureIntent "dinner for 4 people").people = some 4
    ∧ runSearch (normalizeIntent parseFailureIntent "dinner for 4 people") [docSmall]
        = .ok ⟨0, []⟩
    ∧ [docSmall].length = 1 := by
  refine ⟨by decide, ?_, rfl⟩
  rfl

/-- Claim C7 (confirmed).  The filters are conjunctive: for every intent
with a set (truthy) place and budget, every document of a successful filter
chain run has a string location whose lowercase form contains the place
string and an average cost of at most the budget, and was among the
candidates. -/
theorem c7_filters_conjunctive (i : Intent) (b : ℚ) (docs out : List SearchDocument)
    (hp : i.place ≠ "") (hb : i.maxBudget = some b) (hb0 : b ≠ 0)
    (h : surviving i docs = .ok out) :
    ∀ r ∈ out, (∃ s, r.location = .vStr s ∧ strIncludes (strLower s) (strLower i.place) = true)
      ∧ (∃ a, r.averageCost = some a ∧ a ≤ b) ∧ r ∈ docs := by
  intro r hr
  unfold surviving at h
  cases hps : placeStage i.place docs with
  | error e => rw [hps] at h; cases h
  | ok c1 =>
      rw [hps] at h
      cases h
      have h1 : r ∈ peopleStage i.people (budgetStage i.maxBudget (cuisineStage i.cuisine c1)) :=
        mem_vibeStage (mem_keywordStage hr)
      have h2 : r ∈ budgetStage i.maxBudget (cuisineStage i.cuisine c1) := mem_peopleStage h1
      rw [hb] at h2
      have hbeq : (b == 0) = false := beq_eq_false_iff_ne.mpr hb0
      unfold budgetStage at h2
      dsimp only at h2
      rw [hbeq] at h2
      simp only [Bool.false_eq_true, if_false] at h2
      obtain ⟨h3, hpred⟩ := List.mem_filter.mp h2
      have h4 : r ∈ c1 := mem_cuisineStage h3
      unfold placeStage at hps
      rw [beq_eq_false_iff_ne.mpr hp] at hps
      simp only [Bool.false_eq_true, if_false] at hps
      obtain ⟨hmemdocs, s, hloc, hinc⟩ := filterPlaceE_mem hps r h4
      refine ⟨⟨s, hloc, hinc⟩, ?_, hmemdocs⟩
      unfold budgetPred at hpred
      cases hac : r.averageCost with
      | none => rw [hac] at hpred; cases hpred
      | some a =>
          rw [hac] at hpred
          exact ⟨a, rfl, by simpa using hpred⟩

/-- Witness for claim C7 at the spec example: with intent
`{place := "kilimani", maxBudget := 2000}` on a three-document index of
which exactly one satisfies both predicates, that document satisfies the
conjunction and is the only one returned. -/
theorem c7_filters_conjunctive_witness :
    ((∃ s, d1.location = .vStr s ∧ strIncludes (strLower s) (strLower "kilimani") = true)
      ∧ (∃ a, d1.averageCost = some a ∧ a ≤ 2000) ∧ d1 ∈ [d1, d2, d3])
    ∧ runSearch kilimaniIntent [d1, d2, d3] = .ok ⟨1, [d1]⟩ := by
  have h := c7_filters_conjunctive kilimaniIntent 2000 [d1, d2, d3] [d1]
    (by decide) rfl (by norm_num) rfl
  exact ⟨h d1 (List.mem_cons_self d1 []), rfl⟩

/-- Claim C9 (amended).  A parsed `maxBudget` that coerces to 0 is stored as
null and the budget filter is skipped; a parsed `people` that coerces to 0
falls back to the regex extraction from the raw query text (src/index.js
line 411) and is stored as null — skipping the party-size filter — only when
that extraction also yields nothing.  In both cases the normalized intent is
exactly the one obtained with the field absent. -/
theorem c9_zero_budget_people (p : ParsedIntent) (query : String)
    (hb : jsToNumber p.maxBudget = some 0) (hpz : jsToNumber p.people = some 0) :
    (normalizeIntent p query).maxBudget = none
    ∧ (normalizeIntent p query).people = peopleFromText query
    ∧ normalizeIntent p query
        = normalizeIntent { p with maxBudget := .vUndef, people := .vUndef } query
    ∧ (∀ c, budgetStage (normalizeIntent p query).maxBudget c = c)
    ∧ (peopleFromText query = none →
        ∀ c, peopleStage (normalizeIntent p query).people c = c) := by
  have h1 : (normalizeIntent p query).maxBudget = none := by
    simp [normalizeIntent, hb]
  have h2 : (normalizeIntent p query).people = peopleFromText query := by
    simp [normalizeIntent, hpz]
  refine ⟨h1, h2, ?_, ?_, ?_⟩
  · have e3 : normalizeIntent { p with maxBudget := JSVal.vUndef, people := JSVal.vUndef } query
        = { place := jsNormalize p.place
            cuisine := jsNormalize p.cuisine
            vibe := jsNormalize p.vibe
            maxBudget := none
            people := peopleFromText query
            keywords := normKeywords p.keywords } := rfl
    rw [e3]
    unfold normalizeIntent
    rw [hb, hpz]
    norm_num
  · intro c
    rw [h1]
    rfl
  · intro hq c
    rw [h2, hq]
    rfl

/-- Witness for claim C9 at a concrete input: parsed budget and party size
both `0` with the query `"sushi"` yield a fully null budget and party size,
and both filters pass every candidate through. -/
theorem c9_zero_budget_people_witness :
    (normalizeIntent { maxBudget := .vNum 0, people := .vNum 0 } "sushi").maxBudget = none
    ∧ (normalizeIntent { maxBudget := .vNum 0, people := .vNum 0 } "sushi").people = none
    ∧ budgetStage (normalizeIntent { maxBudget := .vNum 0, people := .vNum 0 } "sushi").maxBudget
        [d1, d2, d3] = [d1, d2, d3]
    ∧ peopleStage (normalizeIntent { maxBudget := .vNum 0, people := .vNum 0 } "sushi").people
        [d1, d2, d3] = [d1, d2, d3] := by
  have h := c9_zero_budget_people { maxBudget := .vNum 0, people := .vNum 0 } "sushi" rfl rfl
  refine ⟨h.1, ?_, h.2.2.2.1 [d1, d2, d3], h.2.2.2.2 rfl [d1, d2, d3]⟩
  rw [h.2.1]
  rfl

/-- Counterexample to claim C9 as stated: a parsed `people` of 0 with the
query `"dinner for 3 people"` is stored as 3 (not null), the party-size
filter runs, and it excludes the seating-2 candidate. -/
theorem c9_zero_people_not_null_cex :
    (normalizeIntent { maxBudget := .vNum 0, people := .vNum 0 } "dinner for 3 people").people
      = some 3
    ∧ surviving (normalizeIntent { maxBudget := .vNum 0, people := .vNum 0 }
        "dinner for 3 people") [docSmall] = .ok [] := by
  exact ⟨by decide, rfl⟩

/-- A JavaScript number that is not negative; NaN is not negative, since the
JS comparison `NaN < 0` is false. -/
def NumNotNegative (v : NumVal) : Prop :=
  match v with
  | some q => 0 ≤ q
  | none => True

/-- Unfolding lemma for `NumNotNegative` on a finite number. -/
theorem numNotNegative_some (q : ℚ) : NumNotNegative (some q) ↔ 0 ≤ q := Iff.rfl

/-- Every price surviving the `filter(Boolean)` inside the average-cost
derivation is positive, given that all coercible prices are nonnegative. -/
theorem mem_prices_pos (menu : List MenuRec)
    (h2 : ∀ m ∈ menu, NumNotNegative (jsToNumber (jsOr m.price (.vNum 0))))
    {p : ℚ}
    (hp : p ∈ menu.filterMap (fun m =>
      match jsToNumber (jsOr m.price (.vNum 0)) with
      | some q => if q != 0 then some q else none
      | none => none)) : 0 < p := by
  obtain ⟨m, hm, hmp⟩ := List.mem_filterMap.mp hp
  cases hj : jsToNumber (jsOr m.price (.vNum 0)) with
  | none => rw [hj] at hmp; cases hmp
  | some q =>
      rw [hj] at hmp
      dsimp only at hmp
      by_cases hq : (q != 0) = true
      · rw [if_pos hq] at hmp
        injection hmp with hqp
        subst hqp
        have hnn : 0 ≤ q := by
          have hx := h2 m hm
          rw [hj] at hx
          exact hx
        have hne : q ≠ 0 := by simpa using hq
        exact lt_of_le_of_ne hnn (Ne.symm hne)
      · rw [if_neg hq] at hmp
        cases hmp

/-- The rounded mean of a non-empty list of positive rationals is not
negative. -/
theorem round_mean_nonneg (prices : List ℚ) (hne : prices ≠ [])
    (hpos : ∀ p ∈ prices, 0 < p) :
    0 ≤ jsRound (prices.sum / (prices.length : ℚ)) := by
  have hsum : 0 < prices.sum := List.sum_pos prices hpos hne
  have hlen : 0 < ((prices.length : ℚ)) := by
    exact_mod_cast List.length_pos.mpr hne
  have hdiv : 0 < prices.sum / (prices.length : ℚ) := div_pos hsum hlen
  unfold jsRound
  exact Int.floor_nonneg.mpr (by linarith)

/-- The derived average cost is not negative whenever the explicit value and
all coercible menu prices are nonnegative. -/
theorem jsAverageCost_notNegative (ev : JSVal) (menu : List MenuRec)
    (h1 : NumNotNegative (jsToNumber ev))
    (h2 : ∀ m ∈ menu, NumNotNegative (jsToNumber (jsOr m.price (.vNum 0)))) :
    NumNotNegative (jsAverageCost ev menu) := by
  rw [jsAverageCost]
  by_cases hcond : (!numTruthy (jsToNumber ev) && !menu.isEmpty) = true
  · rw [if_pos hcond]
    set prices := menu.filterMap (fun m =>
      match jsToNumber (jsOr m.price (.vNum 0)) with
      | some q => if q != 0 then some q else none
      | none => none) with hpred
    by_cases hemp : prices.isEmpty = true
    · rw [if_pos hemp]
      exact h1
    · rw [if_neg hemp]
      rw [numNotNegative_some]
      have hps : ∀ p ∈ prices, 0 < p := fun p hp => mem_prices_pos menu h2 (hpred ▸ hp)
      have hnil : prices ≠ [] := by
        intro hx
        rw [hx] at hemp
        exact hemp rfl
      exact_mod_cast round_mean_nonneg prices hnil hps
  · rw [if_neg hcond]
    exact h1

/-- A nonzero explicit value short-circuits the menu fallback. -/
theorem jsAverageCost_explicit (ev : JSVal) (menu : List MenuRec) (q : ℚ)
    (hq : q ≠ 0) (h : jsToNumber ev = some q) :
    jsAverageCost ev menu = some q := by
  rw [jsAverageCost, h]
  have ht : numTruthy (some q) = true := by simp [numTruthy, hq]
  rw [ht]
  simp

/-- Claim C1 (amended).  The derived average cost equals any nonzero finite
number the explicit field coerces to, regardless of menu contents, in both
`buildRestaurantProfile` and the documents of `buildRestaurantsSearchIndex`
(second and fourth conjuncts, unconditional).  Nonnegativity, however, needs
the proviso that the explicit value and all coercible menu prices are
nonnegative — a user record with a negative explicit `averageCost`
propagates it (see the counterexample), so the claim holds only under that
amendment (first and third conjuncts). -/
theorem c1_average_cost (uid : String) (b : Bucket) :
    ((NumNotNegative (jsToNumber (jsOr (b.users.head?.getD emptyUser).averageCost
        (jsOr (b.users.head?.getD emptyUser).averagecost (.vNum 0)))) →
      (∀ m ∈ b.menuItems, NumNotNegative (jsToNumber (jsOr m.price (.vNum 0)))) →
      NumNotNegative (buildRestaurantProfile uid b).averageCost))
    ∧ (∀ q, q ≠ 0 →
        jsToNumber (jsOr (b.users.head?.getD emptyUser).averageCost
          (jsOr (b.users.head?.getD emptyUser).averagecost (.vNum 0))) = some q →
        (buildRestaurantProfile uid b).averageCost = some q)
    ∧ (∀ u, b.users.head? = some u →
        ((NumNotNegative (jsToNumber (jsOr u.averageCost (.vNum 0))) →
          (∀ m ∈ b.menuItems, NumNotNegative (jsToNumber (jsOr m.price (.vNum 0)))) →
          ∀ d ∈ buildRestaurantsSearchIndex [(uid, b)], NumNotNegative d.averageCost)
        ∧ (∀ q, q ≠ 0 → jsToNumber (jsOr u.averageCost (.vNum 0)) = some q →
            ∀ d ∈ buildRestaurantsSearchIndex [(uid, b)], d.averageCost = some q))) := by
  have hprof : (buildRestaurantProfile uid b).averageCost
      = jsAverageCost (jsOr (b.users.head?.getD emptyUser).averageCost
          (jsOr (b.users.head?.getD emptyUser).averagecost (.vNum 0))) b.menuItems := rfl
  refine ⟨?_, ?_, ?_⟩
  · intro h1 h2
    rw [hprof]
    exact jsAverageCost_notNegative _ _ h1 h2
  · intro q hq h
    rw [hprof]
    exact jsAverageCost_explicit _ _ q hq h
  · intro u hu
    have hdoc : ∀ d ∈ buildRestaurantsSearchIndex [(uid, b)],
        d.averageCost = jsAverageCost (jsOr u.averageCost (.vNum 0)) b.menuItems := by
      intro d hd
      obtain ⟨uid2, b2, u2, hmem, hu2, _, rfl⟩ := mem_buildIndex_iff.mp hd
      have hpair : uid2 = uid ∧ b2 = b := by
        cases hmem with
        | head => exact ⟨rfl, rfl⟩
        | tail _ hmem2 => cases hmem2
      obtain ⟨rfl, rfl⟩ := hpair
      rw [hu] at hu2
      cases hu2
      rfl
    constructor
    · intro h1 h2 d hd
      rw [hdoc d hd]
      exact jsAverageCost_notNegative _ _ h1 h2
    · intro q hq h d hd
      rw [hdoc d hd]
      exact jsAverageCost_explicit _ _ q hq h

/-- A bucket with an explicit average cost of 1500, a menu item and a hotel
role. -/
def bkt1 : Bucket where
  users := [{ id := "u1", role := .vStr "hotel", restaurantName := .vStr "Test",
              location := .vStr "CBD", averageCost := .vNum 1500 }]
  menuItems := [{ id := "m1", price := .vNum 200 }]

/-- Witness for claim C1 at a concrete bucket: derived average cost 1500,
nonnegative, in both the profile and the search document, despite the menu
price 200. -/
theorem c1_average_cost_witness :
    NumNotNegative (buildRestaurantProfile "u1" bkt1).averageCost
    ∧ (buildRestaurantProfile "u1" bkt1).averageCost = some 1500
    ∧ ∀ d ∈ buildRestaurantsSearchIndex [("u1", bkt1)], d.averageCost = some 1500 := by
  have hc := c1_average_cost "u1" bkt1
  have h1 : NumNotNegative (jsToNumber (jsOr (bkt1.users.head?.getD emptyUser).averageCost
      (jsOr (bkt1.users.head?.getD emptyUser).averagecost (.vNum 0)))) := by
    rw [show jsToNumber (jsOr (bkt1.users.head?.getD emptyUser).averageCost
      (jsOr (bkt1.users.head?.getD emptyUser).averagecost (.vNum 0))) = some 1500 from by decide]
    rw [numNotNegative_some]
    norm_num
  have h2 : ∀ m ∈ bkt1.menuItems, NumNotNegative (jsToNumber (jsOr m.price (.vNum 0))) := by
    intro m hm
    have hm1 : m = { id := "m1", price := .vNum 200 } := by
      cases hm with
      | head => rfl
      | tail _ h => cases h
    rw [hm1, show jsToNumber (jsOr (MenuRec.mk "m1" .vUndef (.vNum 200)).price (.vNum 0))
          = some 200 from by decide, numNotNegative_some]
    norm_num
  refine ⟨hc.1 h1 h2, hc.2.1 1500 (by norm_num) (by decide), ?_⟩
  exact (hc.2.2 _ rfl).2 1500 (by norm_num) (by decide)

/-- A bucket whose user record carries the explicit average cost −500. -/
def bktNeg : Bucket where
  users := [{ id := "u2", role := .vStr "hotel", averageCost := .vNum (-500) }]

/-- Counterexample to claim C1 as stated: a user record with explicit
`averageCost` −500 yields a negative derived average cost in the profile and
in the search document. -/
theorem c1_negative_cost_cex :
    (buildRestaurantProfile "u2" bktNeg).averageCost = some (-500)
    ∧ ((-500 : ℚ) < 0)
    ∧ (buildRestaurantsSearchIndex [("u2", bktNeg)]).map (fun d => d.averageCost)
        = [some (-500)] := by
  refine ⟨by decide, by norm_num, by decide⟩

/-- Searching a list respects pointwise equality of predicates. -/
theorem find?_pred_congr {α : Type} (l : List α) (p q : α → Bool) (h : ∀ a, p a = q a) :
    l.find? p = l.find? q := by
  rw [funext h]

/-- Looking for a cover record with `userId === A` inside the grouped bucket
of owner `A` is the same as looking in the whole shared collection: the
grouping filter is implied by the strict-equality test. -/
theorem find_cover_bucketFor (store : Store) (A : String) (hA : A ≠ "") :
    (bucketFor store A).coverimage.find? (fun r => r.userId == JSVal.vStr A)
      = store.coverimage.find? (fun r => r.userId == JSVal.vStr A) := by
  show (store.coverimage.filter (fun r => groupsTo A r.userId r.id)).find?
      (fun r => r.userId == JSVal.vStr A) = _
  rw [List.find?_filter]
  apply find?_pred_congr
  intro r
  by_cases hr : r.userId = JSVal.vStr A
  · simp [hr, groupsTo, ownerKey, truthy, jsToStr, hA]
  · simp [hr]

/-- The logo-image analogue of `find_cover_bucketFor`. -/
theorem find_logo_bucketFor (store : Store) (A : String) (hA : A ≠ "") :
    (bucketFor store A).logoimage.find? (fun r => r.userId == JSVal.vStr A)
      = store.logoimage.find? (fun r => r.userId == JSVal.vStr A) := by
  show (store.logoimage.filter (fun r => groupsTo A r.userId r.id)).find?
      (fun r => r.userId == JSVal.vStr A) = _
  rw [List.find?_filter]
  apply find?_pred_congr
  intro r
  by_cases hr : r.userId = JSVal.vStr A
  · simp [hr, groupsTo, ownerKey, truthy, jsToStr, hA]
  · simp [hr]

/-- Claim C6 (confirmed).  Image selection is owner-scoped: the image of the
profile built for owner `A` over the grouped bucket is determined by the
first record of the shared `coverimage` collection whose `userId` is exactly
`A` (else the first such `logoimage` record, else the empty string) — first
conjunct; and any record those lookups select indeed carries `userId = A`,
so a record of a different owner `B` is never selected (second and third
conjuncts). -/
theorem c6_image_owner_scoped (store : Store) (A : String) (hA : A ≠ "") :
    ((buildRestaurantProfile A (bucketFor store A)).image
      = jsOr (match store.coverimage.find? (fun r => r.userId == JSVal.vStr A) with
              | some r => r.coverImageUrl
              | none => .vUndef)
          (jsOr (match store.logoimage.find? (fun r => r.userId == JSVal.vStr A) with
                 | some r => r.logoImageUrl
                 | none => .vUndef)
            (.vStr "")))
    ∧ (∀ rc, store.coverimage.find? (fun r => r.userId == JSVal.vStr A) = some rc →
        rc.userId = .vStr A)
    ∧ (∀ rl, store.logoimage.find? (fun r => r.userId == JSVal.vStr A) = some rl →
        rl.userId = .vStr A) := by
  refine ⟨?_, ?_, ?_⟩
  · show jsOr (match (bucketFor store A).coverimage.find?
          (fun r => r.userId == JSVal.vStr A) with
        | some r => r.coverImageUrl
        | none => .vUndef)
      (jsOr (match (bucketFor store A).logoimage.find?
            (fun r => r.userId == JSVal.vStr A) with
          | some r => r.logoImageUrl
          | none => .vUndef)
        (.vStr "")) = _
    rw [find_cover_bucketFor store A hA, find_logo_bucketFor store A hA]
  · intro rc hrc
    have := List.find?_some hrc
    simpa using this
  · intro rl hrl
    have := List.find?_some hrl
    simpa using this

/-- A shared cover-image collection holding owner `b2` before owner `a1`. -/
def storeC6 : Store where
  users := [{ id := "a1", role := .vStr "hotel" }, { id := "b2", role := .vStr "hotel" }]
  coverimage := [{ id := "cB", userId := .vStr "b2", coverImageUrl := .vStr "urlB" },
                 { id := "cA", userId := .vStr "a1", coverImageUrl := .vStr "urlA" }]
  logoimage := [{ id := "lB", userId := .vStr "b2", logoImageUrl := .vStr "logoB" }]

/-- Witness for claim C6 at a concrete store: although owner `b2` has the
first record of the shared `coverimage` collection, the profile of owner
`a1` carries `a1`-owned `urlA`. -/
theorem c6_image_owner_scoped_witness :
    (buildRestaurantProfile "a1" (bucketFor storeC6 "a1")).image = .vStr "urlA" := by
  have h := c6_image_owner_scoped storeC6 "a1" (by decide)
  rw [h.1]
  rfl

/-- A scalar that is either a string or falsy (so that `v || ""` is a
string). -/
def StrOrFalsy (v : JSVal) : Prop := (∃ s, v = .vStr s) ∨ truthy v = false

/-- The fallback `v || w` is a string when `v` is a string or falsy and `w`
is a string. -/
theorem jsOr_str_of_strOrFalsy (v w : JSVal) (hv : StrOrFalsy v)
    (hw : ∃ s, w = .vStr s) : ∃ s, jsOr v w = .vStr s := by
  unfold jsOr
  cases htr : truthy v with
  | false =>
      rw [if_neg (by simp [htr])]
      exact hw
  | true =>
      rw [if_pos rfl]
      cases hv with
      | inl h => exact h
      | inr h => rw [h] at htr; cases htr

/-- The seat fold of the materializer yields a nonnegative number whenever
every table seat count coerces to a number (not NaN). -/
theorem foldl_maxSeats_nonneg (ts : List TableRec)
    (h : ∀ t ∈ ts, jsToNumber (jsOr t.numSeats (.vNum 0)) ≠ none) :
    ∀ v : ℚ, 0 ≤ v →
      ∃ m, ts.foldl (fun mx t => numMax mx (jsToNumber (jsOr t.numSeats (.vNum 0)))) (some v)
        = some m ∧ 0 ≤ m := by
  induction ts with
  | nil => intro v hv; exact ⟨v, rfl, hv⟩
  | cons t ts ih =>
      intro v hv
      cases hj : jsToNumber (jsOr t.numSeats (.vNum 0)) with
      | none => exact absurd hj (h t (List.mem_cons_self t ts))
      | some w =>
          rw [List.foldl_cons, hj]
          have : numMax (some v) (some w) = some (max v w) := rfl
          rw [this]
          exact ih (fun t2 ht2 => h t2 (List.mem_cons_of_mem t ht2)) (max v w)
            (le_trans hv (le_max_left v w))

/-- Claim C10 (amended).  Every search document the materializer writes has
lowercase string lists for cuisines, amenities and vibes, and numeric
`averageCost` and `maxSeats` (by the `NumVal` type of the model,
unconditionally).  The remaining shape facts need provisos the code does not
enforce: `maxSeats` is a nonnegative number only when every table seat count
coerces to a number, and `restaurantName`, `location` and `image` are
strings only when the underlying record fields are strings or falsy — a
truthy non-string field propagates as-is (see the counterexample), so the
query-time `r.location.toLowerCase()` is well-defined only under that
amendment. -/
theorem c10_searchdoc_shape (entries : List (String × Bucket)) (d : SearchDocument)
    (hd : d ∈ buildRestaurantsSearchIndex entries)
    (hseats : ∀ e ∈ entries, ∀ t ∈ e.2.tables, jsToNumber (jsOr t.numSeats (.vNum 0)) ≠ none)
    (hname : ∀ e ∈ entries, ∀ u, e.2.users.head? = some u → StrOrFalsy u.restaurantName)
    (hloc : ∀ e ∈ entries, ∀ u, e.2.users.head? = some u → StrOrFalsy u.location)
    (himg : ∀ e ∈ entries,
        (∀ r ∈ e.2.coverimage, StrOrFalsy r.coverImageUrl)
        ∧ (∀ r ∈ e.2.logoimage, StrOrFalsy r.logoImageUrl)) :
    (∀ s ∈ d.cuisines, IsLowercase s)
    ∧ (∀ s ∈ d.amenities, IsLowercase s)
    ∧ (∀ s ∈ d.vibes, IsLowercase s)
    ∧ (∃ m, d.maxSeats = some m ∧ 0 ≤ m)
    ∧ (∃ s, d.restaurantName = .vStr s)
    ∧ (∃ s, d.location = .vStr s)
    ∧ (∃ s, d.image = .vStr s) := by
  obtain ⟨uid, bucket, user, hmem, hu, hrole, rfl⟩ := mem_buildIndex_iff.mp hd
  refine ⟨?_, ?_, ?_, ?_, ?_, ?_, ?_⟩
  · intro s hs
    obtain ⟨c, _, rfl⟩ := List.mem_map.mp hs
    exact isLowercase_strLower _
  · intro s hs
    obtain ⟨a, _, rfl⟩ := List.mem_map.mp hs
    exact isLowercase_strLower _
  · intro s hs
    obtain ⟨e, _, rfl⟩ := List.mem_map.mp hs
    exact isLowercase_strLower _
  · exact foldl_maxSeats_nonneg bucket.tables (hseats (uid, bucket) hmem) 0 le_rfl
  · exact jsOr_str_of_strOrFalsy _ _ (hname (uid, bucket) hmem user hu) ⟨"", rfl⟩
  · exact jsOr_str_of_strOrFalsy _ _ (hloc (uid, bucket) hmem user hu) ⟨"", rfl⟩
  · refine jsOr_str_of_strOrFalsy _ _ ?_ (jsOr_str_of_strOrFalsy _ _ ?_ ⟨"", rfl⟩)
    · cases hc : bucket.coverimage.head? with
      | none => exact Or.inr rfl
      | some r =>
          exact (himg (uid, bucket) hmem).1 r (List.mem_of_mem_head? hc)
    · cases hl : bucket.logoimage.head? with
      | none => exact Or.inr rfl
      | some r =>
          exact (himg (uid, bucket) hmem).2 r (List.mem_of_mem_head? hl)

/-- The user record of the shape witness bucket. -/
def shapeUser : UserRec where
  id := "u3"
  role := .vStr "hotel"
  restaurantName := .vStr "Shapely"
  location := .vStr "Karen"

/-- A well-formed bucket exercising every field of the search document. -/
def bktShape : Bucket where
  users := [shapeUser]
  restaurantcuisine := [{ id := "rc", userId := .vStr "u3", cuisines := some [.vStr "Italian"] }]
  tables := [{ id := "t1", numSeats := .vNum 4 }]
  amenities := [{ id := "am1", name := .vStr "WiFi" }]
  experiences := [{ id := "ex1", name := .vStr "Rooftop" }]
  coverimage := [{ id := "ci", userId := .vStr "u3", coverImageUrl := .vStr "img" }]

/-- Witness for claim C10 at a concrete entry list: the single produced
document has lowercase lists, a nonnegative numeric `maxSeats` and string
name, location and image. -/
theorem c10_searchdoc_shape_witness :
    buildRestaurantsSearchIndex [("u3", bktShape)] = [mkSearchDoc "u3" bktShape shapeUser]
    ∧ (∀ s ∈ (mkSearchDoc "u3" bktShape shapeUser).cuisines, IsLowercase s)
    ∧ (∃ m, (mkSearchDoc "u3" bktShape shapeUser).maxSeats = some m ∧ 0 ≤ m)
    ∧ (∃ s, (mkSearchDoc "u3" bktShape shapeUser).location = .vStr s)
    ∧ (∃ s, (mkSearchDoc "u3" bktShape shapeUser).image = .vStr s) := by
  have hidx : buildRestaurantsSearchIndex [("u3", bktShape)]
      = [mkSearchDoc "u3" bktShape shapeUser] := rfl
  have hd : mkSearchDoc "u3" bktShape shapeUser ∈ buildRestaurantsSearchIndex [("u3", bktShape)] := by
    rw [hidx]
    exact List.mem_cons_self _ _
  have hmem1 : ∀ e : String × Bucket, e ∈ [("u3", bktShape)] → e = ("u3", bktShape) := by
    intro e he
    cases he with
    | head => rfl
    | tail _ h2 => cases h2
  have h := c10_searchdoc_shape [("u3", bktShape)] (mkSearchDoc "u3" bktShape shapeUser) hd
    (by
      intro e he t ht
      rw [hmem1 e he] at ht
      have ht1 : t = { id := "t1", numSeats := .vNum 4 } := by
        cases ht with
        | head => rfl
        | tail _ h2 => cases h2
      rw [ht1]
      decide)
    (by
      intro e he u hu
      rw [hmem1 e he] at hu
      cases hu
      exact Or.inl ⟨"Shapely", rfl⟩)
    (by
      intro e he u hu
      rw [hmem1 e he] at hu
      cases hu
      exact Or.inl ⟨"Karen", rfl⟩)
    (by
      intro e he
      rw [hmem1 e he]
      constructor
      · intro r hr
        have hr1 : r = { id := "ci", userId := .vStr "u3", coverImageUrl := .vStr "img" } := by
          cases hr with
          | head => rfl
          | tail _ h2 => cases h2
        rw [hr1]
        exact Or.inl ⟨"img", rfl⟩
      · intro r hr
        cases hr)
  exact ⟨hidx, h.1, h.2.2.2.1, h.2.2.2.2.2.1, h.2.2.2.2.2.2⟩

/-- A bucket whose user record has a numeric `location`. -/
def bktBadLoc : Bucket where
  users := [{ id := "u9", role := .vStr "hotel", location := .vNum 5 }]

/-- Counterexample to claim C10 as stated: a user record whose `location`
field holds the number 5 produces a search document whose `location` is not
a string, and the query-time place filter then aborts with a TypeError
(`r.location.toLowerCase()` is not well-defined on it). -/
theorem c10_location_not_string_cex :
    (buildRestaurantsSearchIndex [("u9", bktBadLoc)]).map (fun d => d.location)
      = [JSVal.vNum 5]
    ∧ placeStage "kilimani" (buildRestaurantsSearchIndex [("u9", bktBadLoc)]) = .error () := by
  exact ⟨rfl, rfl⟩

end ReserveMe
